import Mathlib

/-!
Verification of the vault cryptographic engine of the `private-paw` password
manager against its specification.

The development shallowly embeds the TypeScript sources:

* `src/lib/crypto.ts` — key derivation (`deriveKey`, `hashPassword`,
  `verifyPassword`) and authenticated encryption (`encrypt`, `decrypt`),
  including the base64 container text encoding (`uint8ArrayToBase64`,
  `base64ToUint8Array`) and the UTF-8 string/byte conversions
  (`stringToBuffer`, `bufferToString`).
* `src/lib/vault.ts` — the vault data model (`Credential`, `VaultData`) and
  the storage-facing operations (`vaultExists`, `createVault`, `unlockVault`,
  `saveVault`, `deleteVault`, `importVault`) over the two `localStorage`
  slots `encrypted_vault` and `master_hash`.

Platform primitives that the sources call (Web Crypto PBKDF2 / AES-GCM,
`JSON.stringify` / `JSON.parse`, `crypto.getRandomValues`) are not part of
the repository; they are modelled by concrete executable functions that
satisfy the interface contracts the sources rely on (determinism, output
lengths, ciphertext = plaintext length + 16-byte tag, tag checked by the
cipher, serialization with a stable field order and an inverse parser).
Randomness is passed as explicit parameters. JavaScript strings are modelled
as lists of Unicode scalar values, byte arrays as lists of naturals below
256, and machine integers are naturals with explicit `% 256` where the byte
width matters.
-/

set_option maxRecDepth 10000
set_option linter.unusedVariables false
set_option linter.unreachableTactic false
set_option linter.unusedTactic false

namespace Paw

/-- JavaScript strings, modelled as lists of Unicode scalar values. -/
abbrev JsStr := List Char

/-- Byte sequences (`Uint8Array`), modelled as lists of naturals; every entry
is below 256 wherever the source holds real bytes. -/
abbrev Bytes := List Nat

/-! ## UTF-8 string/byte conversions

`crypto.ts` converts between strings and bytes with `TextEncoder.encode`
and `TextDecoder.decode` (`stringToBuffer` / `bufferToString`).  These are
platform UTF-8; they are embedded as an executable UTF-8 encoder and
decoder over scalar values.
-/

/-- Build a character from a scalar value, failing on non-scalar values. -/
def charOfNat? (n : Nat) : Option Char :=
  if n.isValidChar then some (Char.ofNat n) else none

/-- Split one UTF-8 two-byte sequence off the front of a byte list. -/
def utf8Split2 (b0 : Nat) : Bytes → Option (Nat × Bytes)
  | b1 :: r => if 128 ≤ b1 ∧ b1 < 192 then some ((b0 - 192) * 64 + (b1 - 128), r) else none
  | [] => none

/-- Split one UTF-8 three-byte sequence off the front of a byte list. -/
def utf8Split3 (b0 : Nat) : Bytes → Option (Nat × Bytes)
  | b1 :: b2 :: r =>
    if (128 ≤ b1 ∧ b1 < 192) ∧ (128 ≤ b2 ∧ b2 < 192) then
      some ((b0 - 224) * 4096 + (b1 - 128) * 64 + (b2 - 128), r)
    else none
  | _ => none

/-- Split one UTF-8 four-byte sequence off the front of a byte list. -/
def utf8Split4 (b0 : Nat) : Bytes → Option (Nat × Bytes)
  | b1 :: b2 :: b3 :: r =>
    if (128 ≤ b1 ∧ b1 < 192) ∧ (128 ≤ b2 ∧ b2 < 192) ∧ (128 ≤ b3 ∧ b3 < 192) then
      some ((b0 - 240) * 262144 + (b1 - 128) * 4096 + (b2 - 128) * 64 + (b3 - 128), r)
    else none
  | _ => none

/-- Split one UTF-8 encoded scalar value off the front of a byte list,
by the range of the leading byte. -/
def utf8Split : Bytes → Option (Nat × Bytes)
  | [] => none
  | b0 :: rest =>
    if b0 < 128 then some (b0, rest)
    else if b0 < 192 then none
    else if b0 < 224 then utf8Split2 b0 rest
    else if b0 < 240 then utf8Split3 b0 rest
    else if b0 < 248 then utf8Split4 b0 rest
    else none

/-- Model of `bufferToString` (crypto.ts, `new TextDecoder().decode`):
UTF-8 decode a byte sequence, failing on malformed input. -/
def bufferToString (l : Bytes) : Option (List Char) :=
  match l with
  | [] => some []
  | b0 :: rest =>
    match hs : utf8Split (b0 :: rest) with
    | none => none
    | some (n, r) =>
      (charOfNat? n).bind fun c => (bufferToString r).map fun cs => c :: cs
termination_by l.length
decreasing_by
  rw [utf8Split] at hs
  split_ifs at hs
  · injection hs with h2
    injection h2 with e1 e2
    subst e2
    first
    | (simp; omega)
    | simp
  · cases rest with
    | nil => simp [utf8Split2] at hs
    | cons b1 t =>
      rw [utf8Split2] at hs
      split_ifs at hs
      injection hs with h2
      injection h2 with e1 e2
      subst e2
      first
      | (simp; omega)
      | simp
  · cases rest with
    | nil => simp [utf8Split3] at hs
    | cons b1 t =>
      cases t with
      | nil => simp [utf8Split3] at hs
      | cons b2 t2 =>
        rw [utf8Split3] at hs
        split_ifs at hs
        injection hs with h2
        injection h2 with e1 e2
        subst e2
        first
        | (simp; omega)
        | simp
  · cases rest with
    | nil => simp [utf8Split4] at hs
    | cons b1 t =>
      cases t with
      | nil => simp [utf8Split4] at hs
      | cons b2 t2 =>
        cases t2 with
        | nil => simp [utf8Split4] at hs
        | cons b3 t3 =>
          rw [utf8Split4] at hs
          split_ifs at hs
          injection hs with h2
          injection h2 with e1 e2
          subst e2
          first
          | (simp; omega)
          | simp

/-- UTF-8 encoding of one Unicode scalar value. -/
def utf8Char (c : Char) : Bytes :=
  if c.toNat < 128 then [c.toNat]
  else if c.toNat < 2048 then [192 + c.toNat / 64, 128 + c.toNat % 64]
  else if c.toNat < 65536 then
    [224 + c.toNat / 4096, 128 + c.toNat / 64 % 64, 128 + c.toNat % 64]
  else
    [240 + c.toNat / 262144, 128 + c.toNat / 4096 % 64, 128 + c.toNat / 64 % 64,
      128 + c.toNat % 64]

/-- Model of `stringToBuffer` (crypto.ts, `new TextEncoder().encode`):
UTF-8 encode a string. -/
def stringToBuffer : List Char → Bytes
  | [] => []
  | c :: cs => utf8Char c ++ stringToBuffer cs

/-! ## Base64 text encoding

`crypto.ts` stores containers and the verification artifact as base64
text: `uint8ArrayToBase64` builds a binary string and calls the platform
`btoa`, `base64ToUint8Array` calls `atob` and reads char codes.  The
composition is standard base64 over the byte sequence, embedded here
directly; `atob` failure on malformed input (which the sources catch) is
the `none` result.
-/

/-- Character of the standard base64 alphabet for a sextet value. -/
def b64Char : Nat → Char
  | 0 => 'A'
  | 1 => 'B'
  | 2 => 'C'
  | 3 => 'D'
  | 4 => 'E'
  | 5 => 'F'
  | 6 => 'G'
  | 7 => 'H'
  | 8 => 'I'
  | 9 => 'J'
  | 10 => 'K'
  | 11 => 'L'
  | 12 => 'M'
  | 13 => 'N'
  | 14 => 'O'
  | 15 => 'P'
  | 16 => 'Q'
  | 17 => 'R'
  | 18 => 'S'
  | 19 => 'T'
  | 20 => 'U'
  | 21 => 'V'
  | 22 => 'W'
  | 23 => 'X'
  | 24 => 'Y'
  | 25 => 'Z'
  | 26 => 'a'
  | 27 => 'b'
  | 28 => 'c'
  | 29 => 'd'
  | 30 => 'e'
  | 31 => 'f'
  | 32 => 'g'
  | 33 => 'h'
  | 34 => 'i'
  | 35 => 'j'
  | 36 => 'k'
  | 37 => 'l'
  | 38 => 'm'
  | 39 => 'n'
  | 40 => 'o'
  | 41 => 'p'
  | 42 => 'q'
  | 43 => 'r'
  | 44 => 's'
  | 45 => 't'
  | 46 => 'u'
  | 47 => 'v'
  | 48 => 'w'
  | 49 => 'x'
  | 50 => 'y'
  | 51 => 'z'
  | 52 => '0'
  | 53 => '1'
  | 54 => '2'
  | 55 => '3'
  | 56 => '4'
  | 57 => '5'
  | 58 => '6'
  | 59 => '7'
  | 60 => '8'
  | 61 => '9'
  | 62 => '+'
  | 63 => '/'
  | _ => '='

/-- Sextet value of a base64 alphabet character; `none` off the alphabet. -/
def b64Code : Char → Option Nat
  | 'A' => some 0
  | 'B' => some 1
  | 'C' => some 2
  | 'D' => some 3
  | 'E' => some 4
  | 'F' => some 5
  | 'G' => some 6
  | 'H' => some 7
  | 'I' => some 8
  | 'J' => some 9
  | 'K' => some 10
  | 'L' => some 11
  | 'M' => some 12
  | 'N' => some 13
  | 'O' => some 14
  | 'P' => some 15
  | 'Q' => some 16
  | 'R' => some 17
  | 'S' => some 18
  | 'T' => some 19
  | 'U' => some 20
  | 'V' => some 21
  | 'W' => some 22
  | 'X' => some 23
  | 'Y' => some 24
  | 'Z' => some 25
  | 'a' => some 26
  | 'b' => some 27
  | 'c' => some 28
  | 'd' => some 29
  | 'e' => some 30
  | 'f' => some 31
  | 'g' => some 32
  | 'h' => some 33
  | 'i' => some 34
  | 'j' => some 35
  | 'k' => some 36
  | 'l' => some 37
  | 'm' => some 38
  | 'n' => some 39
  | 'o' => some 40
  | 'p' => some 41
  | 'q' => some 42
  | 'r' => some 43
  | 's' => some 44
  | 't' => some 45
  | 'u' => some 46
  | 'v' => some 47
  | 'w' => some 48
  | 'x' => some 49
  | 'y' => some 50
  | 'z' => some 51
  | '0' => some 52
  | '1' => some 53
  | '2' => some 54
  | '3' => some 55
  | '4' => some 56
  | '5' => some 57
  | '6' => some 58
  | '7' => some 59
  | '8' => some 60
  | '9' => some 61
  | '+' => some 62
  | '/' => some 63
  | _ => none

/-- Model of `uint8ArrayToBase64` (crypto.ts): base64-encode a byte
sequence, with `=` padding. -/
def uint8ArrayToBase64 : Bytes → JsStr
  | [] => []
  | [a] => [b64Char (a / 4), b64Char (a % 4 * 16), '=', '=']
  | [a, b] => [b64Char (a / 4), b64Char (a % 4 * 16 + b / 16), b64Char (b % 16 * 4), '=']
  | a :: b :: c :: rest =>
    b64Char (a / 4) :: b64Char (a % 4 * 16 + b / 16) :: b64Char (b % 16 * 4 + c / 64) ::
      b64Char (c % 64) :: uint8ArrayToBase64 rest

/-- Model of `base64ToUint8Array` (crypto.ts): base64-decode a string,
failing (as `atob` throws) on malformed input. -/
def base64ToUint8Array : JsStr → Option Bytes
  | [] => some []
  | c1 :: c2 :: c3 :: c4 :: rest =>
    match b64Code c1, b64Code c2 with
    | some s1, some s2 =>
      if c3 = '=' then
        if c4 = '=' ∧ rest = [] then some [s1 * 4 + s2 / 16] else none
      else
        match b64Code c3 with
        | some s3 =>
          if c4 = '=' then
            if rest = [] then some [s1 * 4 + s2 / 16, s2 % 16 * 16 + s3 / 4] else none
          else
            match b64Code c4 with
            | some s4 =>
              (base64ToUint8Array rest).map fun bs =>
                (s1 * 4 + s2 / 16) :: (s2 % 16 * 16 + s3 / 4) :: (s3 % 4 * 64 + s4) :: bs
            | none => none
        | none => none
    | _, _ => none
  | _ => none

/-! ## Key derivation and authenticated encryption

`crypto.ts` calls Web Crypto: PBKDF2 with SHA-256 for key derivation
(`deriveKey`, and `deriveBits` in `hashPassword`/`verifyPassword`), and
AES-256-GCM for authenticated encryption.  The platform primitives are
modelled by concrete executable functions satisfying the contracts the
sources rely on: PBKDF2 is a deterministic function of (password bytes,
salt bytes, iteration count) with a 32-byte output, identical for the
`deriveBits` and `deriveKey` entry points with identical parameters (per
the Web Crypto spec, `deriveKey` wraps exactly the bits `deriveBits`
yields); AES-GCM encryption is deterministic in (key, nonce, plaintext),
produces ciphertext of plaintext length plus a 16-byte authentication
tag, and decryption verifies the tag itself, failing on any mismatch.
-/

/-- Constant `SALT_LENGTH` (crypto.ts line 3). -/
def SALT_LENGTH : Nat := 16

/-- Constant `IV_LENGTH` (crypto.ts line 4). -/
def IV_LENGTH : Nat := 12

/-- Constant `KEY_ITERATIONS` (crypto.ts line 5). -/
def KEY_ITERATIONS : Nat := 100000

/-- Seed of the PBKDF2-SHA-256 model: a deterministic mix of password,
salt and iteration count. -/
def pbkdf2Seed (password salt : Bytes) (iterations : Nat) : Nat :=
  (password ++ salt ++ [iterations % 997]).foldl (fun a b => (a * 131 + b + 1) % 1000003) 7

/-- Model of platform PBKDF2-SHA-256 `deriveBits` with a 256-bit output:
deterministic in password, salt and iteration count, 32 bytes out. -/
def pbkdf2Bits (password salt : Bytes) (iterations : Nat) : Bytes :=
  (List.range 32).map fun i => (pbkdf2Seed password salt iterations * (i + 2) + i * 37) % 256

/-- Model of `deriveKey` (crypto.ts lines 37-60): the raw 256-bit key
material of the AES-GCM key PBKDF2 derives from the master password and
the salt. -/
def deriveKey (password : JsStr) (salt : Bytes) : Bytes :=
  pbkdf2Bits (stringToBuffer password) salt KEY_ITERATIONS

/-- Seed of the AES-GCM keystream model. -/
def gcmSeed (key iv : Bytes) : Nat :=
  (key ++ iv).foldl (fun a b => (a * 167 + b + 3) % 999983) 11

/-- Keystream of the AES-GCM model: `n` bytes determined by key and nonce. -/
def keystream (key iv : Bytes) (n : Nat) : Bytes :=
  (List.range n).map fun i => (gcmSeed key iv * (i + 5) + i * 41) % 256

/-- Seed of the AES-GCM authentication-tag model. -/
def gcmTagSeed (key iv ct : Bytes) : Nat :=
  (key ++ iv ++ ct).foldl (fun a b => (a * 173 + b + 5) % 999979) 13

/-- Authentication tag of the AES-GCM model: 16 bytes determined by key,
nonce and ciphertext. -/
def gcmTag (key iv ct : Bytes) : Bytes :=
  (List.range 16).map fun i => (gcmTagSeed key iv ct * (i + 7) + i * 43) % 256

/-- Model of platform AES-256-GCM encryption (`crypto.subtle.encrypt`):
ciphertext of plaintext length, with the 16-byte tag appended by the
cipher. -/
def aesGcmEncrypt (key iv pt : Bytes) : Bytes :=
  List.zipWith (fun p k => p ^^^ k) pt (keystream key iv pt.length) ++
    gcmTag key iv (List.zipWith (fun p k => p ^^^ k) pt (keystream key iv pt.length))

/-- Model of platform AES-256-GCM decryption (`crypto.subtle.decrypt`):
the cipher itself checks the appended tag and fails on any mismatch
(the `none` result stands for the `OperationError` the platform throws). -/
def aesGcmDecrypt (key iv data : Bytes) : Option Bytes :=
  if data.length < 16 then none
  else
    let ct := data.take (data.length - 16)
    if data.drop (data.length - 16) = gcmTag key iv ct then
      some (List.zipWith (fun p k => p ^^^ k) ct (keystream key iv ct.length))
    else none

/-- Model of `encrypt` (crypto.ts lines 63-81).  The salt and nonce the
source draws with `crypto.getRandomValues` are explicit parameters; the
emitted container is the base64 text of salt, nonce and ciphertext+tag
concatenated in this order. -/
def encrypt (salt iv : Bytes) (plaintext : JsStr) (masterPassword : JsStr) : JsStr :=
  uint8ArrayToBase64
    (salt ++ (iv ++ aesGcmEncrypt (deriveKey masterPassword salt) iv (stringToBuffer plaintext)))

/-- Model of `decrypt` (crypto.ts lines 84-100): base64-decode, split at
the fixed offsets (bytes 0-15 salt, 16-27 nonce, 28+ ciphertext with tag),
re-derive the key and attempt authenticated decryption.  `none` is the
failure the callers catch; the platform TextDecoder step that yields
replacement characters on non-UTF-8 plaintext is modelled as failure (its
output would fail the JSON parse that always follows). -/
def decrypt (ciphertext : JsStr) (masterPassword : JsStr) : Option JsStr :=
  (base64ToUint8Array ciphertext).bind fun combined =>
    (aesGcmDecrypt (deriveKey masterPassword (combined.take SALT_LENGTH))
        ((combined.drop SALT_LENGTH).take IV_LENGTH)
        (combined.drop (SALT_LENGTH + IV_LENGTH))).bind fun decryptedData =>
      bufferToString decryptedData

/-- Model of `hashPassword` (crypto.ts lines 103-131): fresh random salt
(explicit parameter), 256 bits derived by PBKDF2-SHA-256 `deriveBits`
with `KEY_ITERATIONS`, artifact = base64 of salt followed by the derived
bits. -/
def hashPassword (salt : Bytes) (password : JsStr) : JsStr :=
  uint8ArrayToBase64 (salt ++ pbkdf2Bits (stringToBuffer password) salt KEY_ITERATIONS)

/-- Model of the byte-comparison loop of `verifyPassword` (crypto.ts
lines 165-167), instrumented with the number of loop iterations executed:
the loop returns `false` at the first mismatching byte.  The iteration
count is the running-time model of the comparison. -/
def compareLoop : Bytes → Bytes → Bool × Nat
  | [], _ => (true, 0)
  | _ :: _, [] => (false, 1)
  | a :: as, b :: bs =>
    if a = b then ((compareLoop as bs).1, (compareLoop as bs).2 + 1) else (false, 1)

/-- Model of `verifyPassword` (crypto.ts lines 134-173): decode the stored
artifact (any decoding error is caught and yields `false`), re-derive bits
with the embedded salt, compare lengths and then bytes with the
short-circuiting loop. -/
def verifyPassword (password : JsStr) (storedHash : JsStr) : Bool :=
  ((base64ToUint8Array storedHash).map fun combined =>
    let storedBits := combined.drop SALT_LENGTH
    let newBits := pbkdf2Bits (stringToBuffer password) (combined.take SALT_LENGTH) KEY_ITERATIONS
    if storedBits.length ≠ newBits.length then false
    else (compareLoop storedBits newBits).1).getD false

/-! ## Vault data model

`src/lib/vault.ts` defines the credential record and the vault structure
(`Credential`, `CredentialCategory`, `VaultData`, lines 46-79) and the
supported format version `VAULT_VERSION = 1` (line 83).
-/

/-- Model of `CredentialCategory` (vault.ts lines 59-65). -/
inductive CredentialCategory
  | social
  | finance
  | work
  | shopping
  | entertainment
  | other
deriving DecidableEq

/-- Model of the `Credential` record (vault.ts lines 46-57).  Timestamps
are naturals (`Date.now()` values). -/
structure Credential where
  id : JsStr
  name : JsStr
  username : JsStr
  password : JsStr
  url : Option JsStr
  notes : Option JsStr
  category : CredentialCategory
  createdAt : Nat
  updatedAt : Nat
  favorite : Bool
deriving DecidableEq

/-- Model of the `VaultData` record (vault.ts lines 76-79): the credential
list plus the format version tag. -/
structure VaultData where
  credentials : List Credential
  version : Nat
deriving DecidableEq

/-- Constant `VAULT_VERSION` (vault.ts line 83). -/
def VAULT_VERSION : Nat := 1

/-! ## Vault serialization

The sources serialize `VaultData` with the platform `JSON.stringify`
(`saveVault`/`createVault`) and read it back with `JSON.parse`
(`unlockVault`).  The platform codec is modelled by a concrete executable
serialization with the contract the sources rely on: deterministic,
stable field order, injective, with an inverse parser that fails on
anything else (`none` stands for `JSON.parse` throwing or the parsed
value not being a vault record).  The version field is carried through
faithfully; whether anyone checks it is decided by the embedded
`vault.ts` code, not here.  Strings are length-prefixed (a
self-delimiting varint) so every credential string round-trips
unchanged.
-/

/-- Self-delimiting variable-length encoding of a natural. -/
def encVarNat (n : Nat) : Bytes :=
  if n < 128 then [n] else (128 + n % 128) :: encVarNat (n / 128)

/-- Inverse of `encVarNat`, returning the value and the unconsumed tail. -/
def decVarNat : Bytes → Option (Nat × Bytes)
  | [] => none
  | b :: rest =>
    if b < 128 then some (b, rest)
    else (decVarNat rest).map fun p => (b - 128 + 128 * p.1, p.2)

/-- Serialize one string field: UTF-8 byte count, then the bytes. -/
def encStr (s : JsStr) : Bytes :=
  encVarNat (stringToBuffer s).length ++ stringToBuffer s

/-- Inverse of `encStr`. -/
def decStr (l : Bytes) : Option (JsStr × Bytes) :=
  (decVarNat l).bind fun p =>
    if p.1 ≤ p.2.length then
      (bufferToString (p.2.take p.1)).map fun s => (s, p.2.drop p.1)
    else none

/-- Serialize an optional string field (absent / present). -/
def encOptStr : Option JsStr → Bytes
  | none => [0]
  | some s => 1 :: encStr s

/-- Inverse of `encOptStr`. -/
def decOptStr : Bytes → Option (Option JsStr × Bytes)
  | 0 :: rest => some (none, rest)
  | 1 :: rest => (decStr rest).map fun p => (some p.1, p.2)
  | _ => none

/-- Serialize the category as a tag byte. -/
def encCat : CredentialCategory → Bytes
  | .social => [0]
  | .finance => [1]
  | .work => [2]
  | .shopping => [3]
  | .entertainment => [4]
  | .other => [5]

/-- Inverse of `encCat`. -/
def decCat : Bytes → Option (CredentialCategory × Bytes)
  | 0 :: rest => some (.social, rest)
  | 1 :: rest => some (.finance, rest)
  | 2 :: rest => some (.work, rest)
  | 3 :: rest => some (.shopping, rest)
  | 4 :: rest => some (.entertainment, rest)
  | 5 :: rest => some (.other, rest)
  | _ => none

/-- Serialize the favorite flag. -/
def encBool : Bool → Bytes
  | false => [0]
  | true => [1]

/-- Inverse of `encBool`. -/
def decBool : Bytes → Option (Bool × Bytes)
  | 0 :: rest => some (false, rest)
  | 1 :: rest => some (true, rest)
  | _ => none

/-- Serialize one credential, fields in declaration order. -/
def encCred (c : Credential) : Bytes :=
  encStr c.id ++ (encStr c.name ++ (encStr c.username ++ (encStr c.password ++
    (encOptStr c.url ++ (encOptStr c.notes ++ (encCat c.category ++
    (encVarNat c.createdAt ++ (encVarNat c.updatedAt ++ encBool c.favorite))))))))

/-- Inverse of `encCred`. -/
def decCred (l : Bytes) : Option (Credential × Bytes) :=
  (decStr l).bind fun p1 =>
  (decStr p1.2).bind fun p2 =>
  (decStr p2.2).bind fun p3 =>
  (decStr p3.2).bind fun p4 =>
  (decOptStr p4.2).bind fun p5 =>
  (decOptStr p5.2).bind fun p6 =>
  (decCat p6.2).bind fun p7 =>
  (decVarNat p7.2).bind fun p8 =>
  (decVarNat p8.2).bind fun p9 =>
  (decBool p9.2).map fun p10 =>
  ({ id := p1.1, name := p2.1, username := p3.1, password := p4.1, url := p5.1,
     notes := p6.1, category := p7.1, createdAt := p8.1, updatedAt := p9.1,
     favorite := p10.1 }, p10.2)

/-- Serialize the credential list elements back to back. -/
def encCreds : List Credential → Bytes
  | [] => []
  | c :: cs => encCred c ++ encCreds cs

/-- Decode exactly `n` credentials, threading the unconsumed tail. -/
def decCreds : Nat → Bytes → Option (List Credential × Bytes)
  | 0, l => some ([], l)
  | n + 1, l => (decCred l).bind fun p => (decCreds n p.2).map fun q => (p.1 :: q.1, q.2)

/-- Serialization of a whole `VaultData`: credential count, credentials,
version tag. -/
def serializeVault (v : VaultData) : Bytes :=
  encVarNat v.credentials.length ++ (encCreds v.credentials ++ encVarNat v.version)

/-- Inverse of `serializeVault`; fails on trailing garbage. -/
def parseVault (l : Bytes) : Option VaultData :=
  (decVarNat l).bind fun p =>
  (decCreds p.1 p.2).bind fun q =>
  (decVarNat q.2).bind fun r =>
  if r.2 = [] then some { credentials := q.1, version := r.1 } else none

/-- Model of `JSON.stringify` applied to a `VaultData` record (vault.ts
lines 100 and 135): the canonical serialization rendered as a string of
`U+0000`-`U+00FF` code points. -/
def stringifyVault (v : VaultData) : JsStr :=
  (serializeVault v).map Char.ofNat

/-- Model of `JSON.parse` followed by the unchecked `.credentials`
projection as `unlockVault` uses them (vault.ts lines 121-122), exact on
the canonical range: a string in the image of `stringifyVault` parses to
its vault record, and no version check happens here or anywhere
downstream.  The source performs no structural validation of the parsed
value, so on strings outside the canonical range the real code can
surface `null` (for example a payload whose `credentials` field is
`null`) or `undefined` (a non-object or field-less payload) even though
`JSON.parse` succeeded; this model conservatively maps every
non-canonical string to the failure outcome.  Theorems about the
failure collapse therefore confine themselves to the causes on which
this model is exact. -/
def parseVaultString (s : JsStr) : Option VaultData :=
  parseVault (s.map Char.toNat)

/-! ## Storage operations

`vault.ts` reads and writes two `localStorage` slots, `encrypted_vault`
and `master_hash` (lines 81-82).  The storage is modelled as an explicit
record threaded through the operations; the randomness `crypto.ts` draws
inside `hashPassword` and `encrypt` is an explicit parameter.
-/

/-- The two persisted slots: `localStorage` keys `encrypted_vault` and
`master_hash`; `none` models an absent key. -/
structure Store where
  encrypted_vault : Option JsStr
  master_hash : Option JsStr
deriving DecidableEq

/-- Randomness one `createVault` call consumes: the `hashPassword` salt
and the `encrypt` salt and nonce. -/
structure Rand where
  hashSalt : Bytes
  encSalt : Bytes
  encIv : Bytes

/-- Model of `vaultExists` (vault.ts lines 86-88). -/
def vaultExists (st : Store) : Bool :=
  st.master_hash.isSome

/-- Model of `createVault` (vault.ts lines 91-102): store the artifact
for the master password, then store the encryption of an empty vault
stamped with `VAULT_VERSION`. -/
def createVault (r : Rand) (masterPassword : JsStr) (st : Store) : Store :=
  let afterHash : Store := { st with master_hash := some (hashPassword r.hashSalt masterPassword) }
  { afterHash with
    encrypted_vault := some (encrypt r.encSalt r.encIv
      (stringifyVault { credentials := [], version := VAULT_VERSION }) masterPassword) }

/-- Model of `unlockVault` (vault.ts lines 105-126): absent hash fails;
failed verification fails; an absent container with a verified password
auto-creates an empty vault; otherwise decrypt and parse, any caught
error yielding the single failure value `none`.  The result is paired
with the possibly updated store. -/
def unlockVault (r : Rand) (masterPassword : JsStr) (st : Store) :
    Option (List Credential) × Store :=
  match st.master_hash with
  | none => (none, st)
  | some storedHash =>
    if verifyPassword masterPassword storedHash then
      match st.encrypted_vault with
      | none => (some [], createVault r masterPassword st)
      | some encryptedVault =>
        match (decrypt encryptedVault masterPassword).bind parseVaultString with
        | none => (none, st)
        | some vaultData => (some vaultData.credentials, st)
    else (none, st)

/-- Model of `saveVault` (vault.ts lines 129-137): re-encrypt the whole
collection stamped with `VAULT_VERSION` and overwrite the container slot. -/
def saveVault (salt iv : Bytes) (credentials : List Credential)
    (masterPassword : JsStr) (st : Store) : Store :=
  { st with
    encrypted_vault := some (encrypt salt iv
      (stringifyVault { credentials := credentials, version := VAULT_VERSION }) masterPassword) }

/-- Model of `deleteVault` (vault.ts lines 145-148). -/
def deleteVault (_st : Store) : Store :=
  { encrypted_vault := none, master_hash := none }

/-- Model of the outcome of `JSON.parse` on the string handed to
`importVault` (vault.ts line 163), restricted to what the source then
reads: the `encrypted` and `hash` fields.  `none` models invalid JSON
(`JSON.parse` throws, or reading a field of a non-object throws); a field
is `none` when absent. -/
structure ImportRecord where
  encrypted : Option JsStr
  hash : Option JsStr
deriving DecidableEq

/-- JavaScript truthiness of an optional string field: absent and the
empty string are falsy. -/
def truthyStr : Option JsStr → Bool
  | none => false
  | some s => !s.isEmpty

/-- Model of `importVault` (vault.ts lines 161-172): reject unless both
fields are truthy, else install both verbatim. -/
def importVault (data : Option ImportRecord) (st : Store) : Bool × Store :=
  match data with
  | none => (false, st)
  | some parsed =>
    if truthyStr parsed.encrypted && truthyStr parsed.hash then
      (true, { encrypted_vault := parsed.encrypted, master_hash := parsed.hash })
    else (false, st)

/-! ## Support lemmas: UTF-8 -/

theorem toNat_ofNat_of_valid {n : Nat} (h : n.isValidChar) : (Char.ofNat n).toNat = n := by
  rw [Char.ofNat, dif_pos h]
  exact rfl

theorem charOfNat?_toNat (c : Char) : charOfNat? c.toNat = some c := by
  have hv : c.toNat.isValidChar := c.valid
  simp [charOfNat?, hv]

theorem toNat_lt_of_char (c : Char) : c.toNat < 1114112 := by
  have h : c.toNat.isValidChar := c.valid
  rcases h with h | ⟨_, h⟩ <;> omega

theorem utf8Char_bytesLt (c : Char) : ∀ b ∈ utf8Char c, b < 256 := by
  have hc := toNat_lt_of_char c
  rw [utf8Char]
  split
  · intro b hb; simp at hb; omega
  · split
    · intro b hb; simp at hb; rcases hb with h | h <;> omega
    · split
      · intro b hb; simp at hb; rcases hb with h | h | h <;> omega
      · intro b hb; simp at hb; rcases hb with h | h | h | h <;> omega

theorem stringToBuffer_bytesLt (s : JsStr) : ∀ b ∈ stringToBuffer s, b < 256 := by
  induction s with
  | nil => simp [stringToBuffer]
  | cons c cs ih =>
    intro b hb
    rw [stringToBuffer] at hb
    rcases List.mem_append.mp hb with h | h
    · exact utf8Char_bytesLt c b h
    · exact ih b h

theorem utf8Split_utf8Char (c : Char) (rest : Bytes) :
    utf8Split (utf8Char c ++ rest) = some (c.toNat, rest) := by
  have hc := toNat_lt_of_char c
  by_cases h1 : c.toNat < 128
  · rw [utf8Char, if_pos h1, List.cons_append, List.nil_append, utf8Split, if_pos h1]
  · by_cases h2 : c.toNat < 2048
    · rw [utf8Char, if_neg h1, if_pos h2]
      simp only [List.cons_append, List.nil_append]
      rw [utf8Split, if_neg (by omega), if_neg (by omega), if_pos (by omega)]
      rw [utf8Split2, if_pos (by constructor <;> omega)]
      congr 2
      omega
    · by_cases h3 : c.toNat < 65536
      · rw [utf8Char, if_neg h1, if_neg h2, if_pos h3]
        simp only [List.cons_append, List.nil_append]
        rw [utf8Split, if_neg (by omega), if_neg (by omega), if_neg (by omega),
          if_pos (by omega)]
        rw [utf8Split3, if_pos (by refine ⟨⟨?_, ?_⟩, ?_, ?_⟩ <;> omega)]
        congr 2
        omega
      · rw [utf8Char, if_neg h1, if_neg h2, if_neg h3]
        simp only [List.cons_append, List.nil_append]
        rw [utf8Split, if_neg (by omega), if_neg (by omega), if_neg (by omega),
          if_neg (by omega), if_pos (by omega)]
        rw [utf8Split4, if_pos (by refine ⟨⟨?_, ?_⟩, ⟨?_, ?_⟩, ?_, ?_⟩ <;> omega)]
        congr 2
        omega

theorem bufferToString_utf8Char (c : Char) (rest : Bytes) (cs : List Char)
    (h : bufferToString rest = some cs) :
    bufferToString (utf8Char c ++ rest) = some (c :: cs) := by
  have hsplit := utf8Split_utf8Char c rest
  have hcons : ∃ b0 t, utf8Char c ++ rest = b0 :: t := by
    rw [utf8Char]
    split_ifs <;> exact ⟨_, _, rfl⟩
  obtain ⟨b0, t, hl⟩ := hcons
  rw [hl] at hsplit ⊢
  rw [bufferToString]
  split
  · simp_all
  · rename_i n r heq
    rw [hsplit] at heq
    injection heq with heq2
    injection heq2 with e1 e2
    subst e1
    subst e2
    rw [charOfNat?_toNat, h]
    rfl

/-- UTF-8 round trip: decoding an encoded string gives back the string. -/
theorem bufferToString_stringToBuffer (s : List Char) :
    bufferToString (stringToBuffer s) = some s := by
  induction s with
  | nil => rw [stringToBuffer, bufferToString]
  | cons c cs ih => rw [stringToBuffer]; exact bufferToString_utf8Char c _ cs ih

/-! ## Support lemmas: base64 -/

theorem b64Code_b64Char : ∀ s : Nat, s < 64 → b64Code (b64Char s) = some s := by decide

theorem b64Char_ne_pad : ∀ s : Nat, s < 64 → b64Char s ≠ '=' := by decide

/-- Base64 round trip: decoding an encoding gives back the bytes. -/
theorem base64_round_trip (bs : Bytes) (h : ∀ b ∈ bs, b < 256) :
    base64ToUint8Array (uint8ArrayToBase64 bs) = some bs := by
  induction bs using uint8ArrayToBase64.induct with
  | case1 => rfl
  | case2 a =>
    have ha : a < 256 := h a (by simp)
    have e1 := b64Code_b64Char (a / 4) (by omega)
    have e2 := b64Code_b64Char (a % 4 * 16) (by omega)
    rw [uint8ArrayToBase64, base64ToUint8Array]
    simp [e1, e2]
    omega
  | case3 a b =>
    have ha : a < 256 := h a (by simp)
    have hb : b < 256 := h b (by simp)
    have e1 := b64Code_b64Char (a / 4) (by omega)
    have e2 := b64Code_b64Char (a % 4 * 16 + b / 16) (by omega)
    have e3 := b64Code_b64Char (b % 16 * 4) (by omega)
    have n3 := b64Char_ne_pad (b % 16 * 4) (by omega)
    rw [uint8ArrayToBase64, base64ToUint8Array]
    simp [e1, e2, e3, n3]
    omega
  | case4 a b c rest ih =>
    have ha : a < 256 := h a (by simp)
    have hb : b < 256 := h b (by simp)
    have hc : c < 256 := h c (by simp)
    have hrest : ∀ x ∈ rest, x < 256 := fun x hx => h x (by simp [hx])
    have e1 := b64Code_b64Char (a / 4) (by omega)
    have e2 := b64Code_b64Char (a % 4 * 16 + b / 16) (by omega)
    have e3 := b64Code_b64Char (b % 16 * 4 + c / 64) (by omega)
    have e4 := b64Code_b64Char (c % 64) (by omega)
    have n3 := b64Char_ne_pad (b % 16 * 4 + c / 64) (by omega)
    have n4 := b64Char_ne_pad (c % 64) (by omega)
    rw [uint8ArrayToBase64, base64ToUint8Array]
    simp [e1, e2, e3, e4, n3, n4, ih hrest]
    refine ⟨by omega, by omega, by omega⟩

/-! ## Support lemmas: key derivation and cipher -/

theorem pbkdf2Bits_length (p s : Bytes) (it : Nat) : (pbkdf2Bits p s it).length = 32 := by
  simp [pbkdf2Bits]

theorem pbkdf2Bits_bytesLt (p s : Bytes) (it : Nat) : ∀ b ∈ pbkdf2Bits p s it, b < 256 := by
  intro b hb
  simp [pbkdf2Bits] at hb
  obtain ⟨i, _, rfl⟩ := hb
  omega

theorem keystream_length (key iv : Bytes) (n : Nat) : (keystream key iv n).length = n := by
  simp [keystream]

theorem gcmTag_length (key iv ct : Bytes) : (gcmTag key iv ct).length = 16 := by
  simp [gcmTag]

theorem keystream_bytesLt (key iv : Bytes) (n : Nat) : ∀ b ∈ keystream key iv n, b < 256 := by
  intro b hb
  simp [keystream] at hb
  obtain ⟨i, _, rfl⟩ := hb
  omega

theorem gcmTag_bytesLt (key iv ct : Bytes) : ∀ b ∈ gcmTag key iv ct, b < 256 := by
  intro b hb
  simp [gcmTag] at hb
  obtain ⟨i, _, rfl⟩ := hb
  omega

theorem xor_lt_256 {a b : Nat} (ha : a < 256) (hb : b < 256) : a ^^^ b < 256 := by
  have h := Nat.xor_lt_two_pow (n := 8) ha hb
  simpa using h

theorem zipWith_xor_cancel (pt ks : Bytes) (h : pt.length ≤ ks.length) :
    List.zipWith (fun p k => p ^^^ k) (List.zipWith (fun p k => p ^^^ k) pt ks) ks = pt := by
  induction pt generalizing ks with
  | nil => simp
  | cons p ps ih =>
    match ks with
    | [] => simp at h
    | k :: kt =>
      simp only [List.zipWith_cons_cons]
      rw [Nat.xor_cancel_right, ih kt (by simpa using h)]

theorem zipWith_xor_bytesLt (pt ks : Bytes) (h1 : ∀ b ∈ pt, b < 256) (h2 : ∀ b ∈ ks, b < 256) :
    ∀ b ∈ List.zipWith (fun p k => p ^^^ k) pt ks, b < 256 := by
  induction pt generalizing ks with
  | nil => simp
  | cons p ps ih =>
    match ks with
    | [] => simp
    | k :: kt =>
      intro b hb
      simp only [List.zipWith_cons_cons, List.mem_cons] at hb
      rcases hb with rfl | hb
      · exact xor_lt_256 (h1 p (by simp)) (h2 k (by simp))
      · exact ih kt (fun x hx => h1 x (by simp [hx])) (fun x hx => h2 x (by simp [hx])) b hb

theorem aesGcmEncrypt_length (key iv pt : Bytes) :
    (aesGcmEncrypt key iv pt).length = pt.length + 16 := by
  simp [aesGcmEncrypt, keystream_length, gcmTag_length]

theorem aesGcmEncrypt_bytesLt (key iv pt : Bytes) (h : ∀ b ∈ pt, b < 256) :
    ∀ b ∈ aesGcmEncrypt key iv pt, b < 256 := by
  intro b hb
  rw [aesGcmEncrypt] at hb
  rcases List.mem_append.mp hb with hm | hm
  · exact zipWith_xor_bytesLt pt _ h (keystream_bytesLt key iv pt.length) b hm
  · exact gcmTag_bytesLt _ _ _ b hm

/-- AES-GCM model round trip: decryption of an encryption succeeds and
returns the plaintext. -/
theorem aesGcm_round_trip (key iv pt : Bytes) :
    aesGcmDecrypt key iv (aesGcmEncrypt key iv pt) = some pt := by
  have hct : (List.zipWith (fun p k => p ^^^ k) pt (keystream key iv pt.length)).length
      = pt.length := by
    simp [keystream_length]
  have hlen : (aesGcmEncrypt key iv pt).length = pt.length + 16 := aesGcmEncrypt_length key iv pt
  rw [aesGcmEncrypt] at hlen ⊢
  rw [aesGcmDecrypt, if_neg (by omega), hlen]
  have e16 : pt.length + 16 - 16 = pt.length := by omega
  rw [e16]
  rw [List.take_left' hct, List.drop_left' hct]
  rw [if_pos rfl, hct]
  rw [zipWith_xor_cancel pt _ (by rw [keystream_length])]

theorem compareLoop_self (l : Bytes) : compareLoop l l = (true, l.length) := by
  induction l with
  | nil => rfl
  | cons a as ih => rw [compareLoop, if_pos rfl, ih]; rfl

/-- Verifying a password against its own freshly produced artifact
succeeds. -/
theorem verifyPassword_hashPassword (pw : JsStr) (salt : Bytes)
    (h16 : salt.length = 16) (hb : ∀ b ∈ salt, b < 256) :
    verifyPassword pw (hashPassword salt pw) = true := by
  have hrt := base64_round_trip
    (salt ++ pbkdf2Bits (stringToBuffer pw) salt KEY_ITERATIONS)
    (by
      intro b hb2
      rcases List.mem_append.mp hb2 with h | h
      · exact hb b h
      · exact pbkdf2Bits_bytesLt _ _ _ b h)
  rw [hashPassword, verifyPassword, hrt]
  simp only [Option.map_some', Option.getD_some]
  have h16x : salt.length = SALT_LENGTH := by rw [h16]; rfl
  rw [List.take_left' h16x, List.drop_left' h16x]
  rw [if_neg (by simp)]
  rw [compareLoop_self]

/-- Round trip of the cipher layer: `decrypt(encrypt(s, P), P) = s`. -/
theorem decrypt_encrypt (salt iv : Bytes) (pt pw : JsStr)
    (hs : salt.length = 16) (hi : iv.length = 12)
    (hsb : ∀ b ∈ salt, b < 256) (hib : ∀ b ∈ iv, b < 256) :
    decrypt (encrypt salt iv pt pw) pw = some pt := by
  have hed := aesGcmEncrypt_bytesLt (deriveKey pw salt) iv (stringToBuffer pt)
    (stringToBuffer_bytesLt pt)
  have hcomb :
      ∀ b ∈ salt ++ (iv ++ aesGcmEncrypt (deriveKey pw salt) iv (stringToBuffer pt)),
      b < 256 := by
    intro b hb
    rcases List.mem_append.mp hb with h | h
    · exact hsb b h
    rcases List.mem_append.mp h with h2 | h2
    · exact hib b h2
    · exact hed b h2
  rw [encrypt, decrypt, base64_round_trip _ hcomb]
  simp only [Option.some_bind]
  have hsx : salt.length = SALT_LENGTH := by rw [hs]; rfl
  have hix : iv.length = IV_LENGTH := by rw [hi]; rfl
  rw [List.take_left' hsx, List.drop_left' hsx]
  rw [List.take_left' hix]
  rw [show SALT_LENGTH + IV_LENGTH = 16 + 12 from rfl, ← List.drop_drop]
  rw [List.drop_left' hs, List.drop_left' hi]
  rw [aesGcm_round_trip]
  simp only [Option.some_bind]
  exact bufferToString_stringToBuffer pt

/-! ## Support lemmas: serialization codec -/

theorem decVarNat_encVarNat (n : Nat) (rest : Bytes) :
    decVarNat (encVarNat n ++ rest) = some (n, rest) := by
  induction n using encVarNat.induct with
  | case1 n h => simp [encVarNat, decVarNat, h]
  | case2 n h ih =>
    rw [encVarNat, if_neg h]
    simp only [List.cons_append, decVarNat, if_neg (by omega : ¬ 128 + n % 128 < 128)]
    rw [List.append_eq, ih]
    simp only [Option.map_some']
    refine congrArg some (Prod.ext ?_ rfl)
    simp only []
    omega

theorem decStr_encStr (s : JsStr) (rest : Bytes) :
    decStr (encStr s ++ rest) = some (s, rest) := by
  rw [encStr, List.append_assoc, decStr, decVarNat_encVarNat]
  simp only [Option.some_bind]
  rw [if_pos (by simp)]
  rw [List.take_left, List.drop_left, bufferToString_stringToBuffer]
  rfl

theorem decOptStr_encOptStr (o : Option JsStr) (rest : Bytes) :
    decOptStr (encOptStr o ++ rest) = some (o, rest) := by
  match o with
  | none => rfl
  | some s =>
    rw [encOptStr, List.cons_append, decOptStr, decStr_encStr]
    rfl

theorem decCat_encCat (c : CredentialCategory) (rest : Bytes) :
    decCat (encCat c ++ rest) = some (c, rest) := by
  cases c <;> rfl

theorem decBool_encBool (b : Bool) (rest : Bytes) :
    decBool (encBool b ++ rest) = some (b, rest) := by
  cases b <;> rfl

theorem decCred_encCred (c : Credential) (rest : Bytes) :
    decCred (encCred c ++ rest) = some (c, rest) := by
  rw [encCred]
  simp only [List.append_assoc]
  rw [decCred, decStr_encStr]
  simp only [Option.some_bind]
  rw [decStr_encStr]
  simp only [Option.some_bind]
  rw [decStr_encStr]
  simp only [Option.some_bind]
  rw [decStr_encStr]
  simp only [Option.some_bind]
  rw [decOptStr_encOptStr]
  simp only [Option.some_bind]
  rw [decOptStr_encOptStr]
  simp only [Option.some_bind]
  rw [decCat_encCat]
  simp only [Option.some_bind]
  rw [decVarNat_encVarNat]
  simp only [Option.some_bind]
  rw [decVarNat_encVarNat]
  simp only [Option.some_bind]
  rw [decBool_encBool]
  rfl

theorem decCreds_encCreds (cs : List Credential) (rest : Bytes) :
    decCreds cs.length (encCreds cs ++ rest) = some (cs, rest) := by
  induction cs generalizing rest with
  | nil => simp [encCreds, decCreds]
  | cons c ct ih =>
    rw [encCreds, List.length_cons, List.append_assoc, decCreds, decCred_encCred]
    simp only [Option.some_bind]
    rw [ih]
    rfl

/-- Serialization round trip: parsing a serialized vault returns the vault. -/
theorem parseVault_serializeVault (v : VaultData) :
    parseVault (serializeVault v) = some v := by
  rw [serializeVault, parseVault, decVarNat_encVarNat]
  simp only [Option.some_bind]
  rw [← List.append_nil (encVarNat v.version), ← List.append_assoc,
    List.append_nil, decCreds_encCreds]
  simp only [Option.some_bind]
  rw [← List.append_nil (encVarNat v.version), decVarNat_encVarNat]
  simp only [Option.some_bind]
  simp

theorem encVarNat_bytesLt (n : Nat) : ∀ b ∈ encVarNat n, b < 256 := by
  induction n using encVarNat.induct with
  | case1 n h => rw [encVarNat, if_pos h]; intro b hb; simp at hb; omega
  | case2 n h ih =>
    rw [encVarNat, if_neg h]
    intro b hb
    rcases List.mem_cons.mp hb with rfl | hb2
    · omega
    · exact ih b hb2

theorem encStr_bytesLt (s : JsStr) : ∀ b ∈ encStr s, b < 256 := by
  intro b hb
  rcases List.mem_append.mp hb with h | h
  · exact encVarNat_bytesLt _ b h
  · exact stringToBuffer_bytesLt s b h

theorem encOptStr_bytesLt (o : Option JsStr) : ∀ b ∈ encOptStr o, b < 256 := by
  match o with
  | none => intro b hb; simp [encOptStr] at hb; omega
  | some s =>
    intro b hb
    rcases List.mem_cons.mp hb with rfl | h
    · omega
    · exact encStr_bytesLt s b h

theorem encCat_bytesLt (c : CredentialCategory) : ∀ b ∈ encCat c, b < 256 := by
  cases c <;> (intro b hb; simp [encCat] at hb; omega)

theorem encBool_bytesLt (x : Bool) : ∀ b ∈ encBool x, b < 256 := by
  cases x <;> (intro b hb; simp [encBool] at hb; omega)

theorem encCred_bytesLt (c : Credential) : ∀ b ∈ encCred c, b < 256 := by
  intro b hb
  rw [encCred] at hb
  rcases List.mem_append.mp hb with h | hb; · exact encStr_bytesLt _ b h
  rcases List.mem_append.mp hb with h | hb; · exact encStr_bytesLt _ b h
  rcases List.mem_append.mp hb with h | hb; · exact encStr_bytesLt _ b h
  rcases List.mem_append.mp hb with h | hb; · exact encStr_bytesLt _ b h
  rcases List.mem_append.mp hb with h | hb; · exact encOptStr_bytesLt _ b h
  rcases List.mem_append.mp hb with h | hb; · exact encOptStr_bytesLt _ b h
  rcases List.mem_append.mp hb with h | hb; · exact encCat_bytesLt _ b h
  rcases List.mem_append.mp hb with h | hb; · exact encVarNat_bytesLt _ b h
  rcases List.mem_append.mp hb with h | hb; · exact encVarNat_bytesLt _ b h
  exact encBool_bytesLt _ b hb

theorem encCreds_bytesLt (cs : List Credential) : ∀ b ∈ encCreds cs, b < 256 := by
  induction cs with
  | nil => simp [encCreds]
  | cons c ct ih =>
    intro b hb
    rw [encCreds] at hb
    rcases List.mem_append.mp hb with h | h
    · exact encCred_bytesLt c b h
    · exact ih b h

theorem serializeVault_bytesLt (v : VaultData) : ∀ b ∈ serializeVault v, b < 256 := by
  intro b hb
  rw [serializeVault] at hb
  rcases List.mem_append.mp hb with h | hb2; · exact encVarNat_bytesLt _ b h
  rcases List.mem_append.mp hb2 with h | h
  · exact encCreds_bytesLt _ b h
  · exact encVarNat_bytesLt _ b h

theorem toNat_ofNat_lt {b : Nat} (h : b < 256) : (Char.ofNat b).toNat = b :=
  toNat_ofNat_of_valid (Or.inl (by omega))

/-- Stringify/parse round trip for vault records. -/
theorem parseVaultString_stringifyVault (v : VaultData) :
    parseVaultString (stringifyVault v) = some v := by
  rw [stringifyVault, parseVaultString, List.map_map]
  have he : (serializeVault v).map (Char.toNat ∘ Char.ofNat) = serializeVault v := by
    simp only [Function.comp_def]
    have := List.map_congr_left
      (fun b hb => toNat_ofNat_lt (serializeVault_bytesLt v b hb) :
        ∀ b ∈ serializeVault v, (Char.ofNat b).toNat = id b)
    rw [this]
    exact List.map_id _
  rw [he, parseVault_serializeVault]

/-! ## Support lemmas: storage operations -/

/-- Unlocking a store holding an artifact for `pw` and a container sealed
under `pw` succeeds and returns the embedded credential list, for every
version tag: the source reads `vaultData.credentials` without inspecting
`vaultData.version`. -/
theorem unlockVault_sealed (r : Rand) (pw : JsStr) (creds : List Credential) (ver : Nat)
    (salt iv hsalt : Bytes)
    (hh16 : hsalt.length = 16) (hhb : ∀ b ∈ hsalt, b < 256)
    (hs : salt.length = 16) (hi : iv.length = 12)
    (hsb : ∀ b ∈ salt, b < 256) (hib : ∀ b ∈ iv, b < 256) :
    unlockVault r pw
      { encrypted_vault := some (encrypt salt iv
          (stringifyVault { credentials := creds, version := ver }) pw),
        master_hash := some (hashPassword hsalt pw) }
      = (some creds,
        { encrypted_vault := some (encrypt salt iv
            (stringifyVault { credentials := creds, version := ver }) pw),
          master_hash := some (hashPassword hsalt pw) }) := by
  rw [unlockVault]
  conv_lhs => whnf
  rw [verifyPassword_hashPassword pw hsalt hh16 hhb]
  conv_lhs => whnf
  rw [decrypt_encrypt salt iv _ pw hs hi hsb hib, Option.some_bind,
    parseVaultString_stringifyVault]

/-- Decoding a sealed container recovers exactly salt, nonce and
ciphertext+tag in that order. -/
theorem encrypt_decoded (salt iv : Bytes) (pt pw : JsStr)
    (hsb : ∀ b ∈ salt, b < 256) (hib : ∀ b ∈ iv, b < 256) :
    base64ToUint8Array (encrypt salt iv pt pw)
      = some (salt ++ (iv ++ aesGcmEncrypt (deriveKey pw salt) iv (stringToBuffer pt))) := by
  apply base64_round_trip
  intro b hb
  rcases List.mem_append.mp hb with h | hb2
  · exact hsb b h
  rcases List.mem_append.mp hb2 with h | h
  · exact hib b h
  · exact aesGcmEncrypt_bytesLt _ _ _ (stringToBuffer_bytesLt pt) b h

/-- The salt and nonce fields of a sealed container are exactly the fresh
random inputs of that call. -/
theorem encrypt_fields (salt iv : Bytes) (pt pw : JsStr)
    (hs : salt.length = 16) (hi : iv.length = 12)
    (hsb : ∀ b ∈ salt, b < 256) (hib : ∀ b ∈ iv, b < 256) :
    (base64ToUint8Array (encrypt salt iv pt pw)).map (List.take 16) = some salt ∧
    (base64ToUint8Array (encrypt salt iv pt pw)).map
      (fun bs => (bs.drop 16).take 12) = some iv := by
  rw [encrypt_decoded salt iv pt pw hsb hib]
  constructor
  · rw [Option.map_some', List.take_left' hs]
  · rw [Option.map_some', List.drop_left' hs, List.take_left' hi]

/-! ## The claims -/

/-- C1: sealing a collection (or any plaintext string) under a password
and opening with the same password succeeds and returns a structurally
equal value: `decrypt(encrypt(s, P), P) = s` for every plaintext string
and password, and a vault record round-trips through serialization,
encryption, decryption and parsing. -/
theorem claim1_seal_open_round_trip (salt iv : Bytes)
    (hs : salt.length = 16) (hi : iv.length = 12)
    (hsb : ∀ b ∈ salt, b < 256) (hib : ∀ b ∈ iv, b < 256) :
    (∀ s pw : JsStr, decrypt (encrypt salt iv s pw) pw = some s) ∧
    (∀ (v : VaultData) (pw : JsStr),
      (decrypt (encrypt salt iv (stringifyVault v) pw) pw).bind parseVaultString = some v) := by
  constructor
  · intro s pw
    exact decrypt_encrypt salt iv s pw hs hi hsb hib
  · intro v pw
    rw [decrypt_encrypt salt iv _ pw hs hi hsb hib, Option.some_bind]
    exact parseVaultString_stringifyVault v

/-- Witness for C1 at concrete inputs. -/
theorem claim1_witness :
    decrypt (encrypt (List.replicate 16 7) (List.replicate 12 3) ['h', 'i'] ['p', 'w'])
        ['p', 'w'] = some ['h', 'i'] ∧
    (decrypt (encrypt (List.replicate 16 7) (List.replicate 12 3)
        (stringifyVault { credentials := [], version := VAULT_VERSION }) ['p', 'w'])
        ['p', 'w']).bind parseVaultString
      = some { credentials := [], version := VAULT_VERSION } :=
  ⟨(claim1_seal_open_round_trip (List.replicate 16 7) (List.replicate 12 3)
      (by decide) (by decide) (by decide) (by decide)).1 ['h', 'i'] ['p', 'w'],
   (claim1_seal_open_round_trip (List.replicate 16 7) (List.replicate 12 3)
      (by decide) (by decide) (by decide) (by decide)).2
      { credentials := [], version := VAULT_VERSION } ['p', 'w']⟩

/-- C2: the byte comparison of `verifyPassword` is not constant time in
the position of the first mismatching byte — the loop returns at the
first difference, so on equal-length 32-byte inputs it runs 1 iteration
when byte 0 differs but 32 iterations when only byte 31 differs.  This
contradicts the specified constant-time requirement: the code is the
bug. -/
theorem claim2_compare_short_circuits :
    (compareLoop (1 :: List.replicate 31 0) (List.replicate 32 0)).1 = false ∧
    (compareLoop (1 :: List.replicate 31 0) (List.replicate 32 0)).2 = 1 ∧
    (compareLoop (List.replicate 31 0 ++ [1]) (List.replicate 32 0)).1 = false ∧
    (compareLoop (List.replicate 31 0 ++ [1]) (List.replicate 32 0)).2 = 32 ∧
    (1 :: List.replicate 31 0 : Bytes).length = (List.replicate 31 0 ++ [1] : Bytes).length := by
  decide

/-- C3: contrary to the specified fail-closed version check, unlocking a
store whose container embeds an unsupported version tag (`ver ≠
VAULT_VERSION`) with the correct password returns the credential list —
the source never inspects the version tag on decode.  The spec is the
intent; the missing check is the bug. -/
theorem claim3_version_mismatch_unlocks (r : Rand) (pw : JsStr)
    (creds : List Credential) (ver : Nat) (salt iv hsalt : Bytes)
    (hver : ver ≠ VAULT_VERSION)
    (hh16 : hsalt.length = 16) (hhb : ∀ b ∈ hsalt, b < 256)
    (hs : salt.length = 16) (hi : iv.length = 12)
    (hsb : ∀ b ∈ salt, b < 256) (hib : ∀ b ∈ iv, b < 256) :
    (unlockVault r pw
      { encrypted_vault := some (encrypt salt iv
          (stringifyVault { credentials := creds, version := ver }) pw),
        master_hash := some (hashPassword hsalt pw) }).1 = some creds := by
  rw [unlockVault_sealed r pw creds ver salt iv hsalt hh16 hhb hs hi hsb hib]

/-- Witness for C3: a version-2 container unlocks and yields its
credential list. -/
theorem claim3_witness :
    (unlockVault ⟨List.replicate 16 1, List.replicate 16 2, List.replicate 12 3⟩ ['p', 'w']
      { encrypted_vault := some (encrypt (List.replicate 16 4) (List.replicate 12 5)
          (stringifyVault { credentials := [], version := 2 }) ['p', 'w']),
        master_hash := some (hashPassword (List.replicate 16 6) ['p', 'w']) }).1 = some [] :=
  claim3_version_mismatch_unlocks ⟨List.replicate 16 1, List.replicate 16 2, List.replicate 12 3⟩
    ['p', 'w'] [] 2 (List.replicate 16 4) (List.replicate 12 5) (List.replicate 16 6)
    (by decide) (by decide) (by decide) (by decide) (by decide) (by decide) (by decide)

/-- C4 counterexample: at password `"a"` and an all-zero 16-byte salt,
the 256 derived bits stored in the verification artifact are exactly the
raw bits of the encryption key derived with the same salt — refuting the
claim that they are never equal.  Both call sites run PBKDF2-SHA-256 with
identical password, salt, iteration count and output length. -/
theorem claim4_counterexample :
    (base64ToUint8Array (hashPassword (List.replicate 16 0) ['a'])).map (List.drop 16)
      = some (deriveKey ['a'] (List.replicate 16 0)) := by
  decide

/-- C4 amended: for every password and every well-formed salt, the
artifact's stored derived bits are always exactly equal to the raw
encryption key bits `deriveKey` produces for the same salt; the two
derivations coincide, and the artifact differs from the key actually used
for encryption only because the two draws of random salt are
independent. -/
theorem claim4_artifact_equals_key (pw : JsStr) (salt : Bytes)
    (h16 : salt.length = 16) (hb : ∀ b ∈ salt, b < 256) :
    (base64ToUint8Array (hashPassword salt pw)).map (List.drop 16)
      = some (deriveKey pw salt) := by
  rw [hashPassword, base64_round_trip _ (by
    intro b hb2
    rcases List.mem_append.mp hb2 with h | h
    · exact hb b h
    · exact pbkdf2Bits_bytesLt _ _ _ b h)]
  rw [Option.map_some', List.drop_left' (by rw [h16])]
  rfl

/-- Witness for C4's amended statement at concrete inputs. -/
theorem claim4_witness :
    (base64ToUint8Array (hashPassword (List.replicate 16 9) ['x'])).map (List.drop 16)
      = some (deriveKey ['x'] (List.replicate 16 9)) :=
  claim4_artifact_equals_key ['x'] (List.replicate 16 9) (by decide) (by decide)

/-- C5 counterexample: a store whose container embeds version tag 3
unlocks to `some []` rather than the claimed failure outcome `none` —
a version mismatch is not among the causes `unlockVault` collapses to
`null`, because it is not detected at all. -/
theorem claim5_counterexample :
    (unlockVault ⟨List.replicate 16 1, List.replicate 16 2, List.replicate 12 3⟩ ['q']
      { encrypted_vault := some (encrypt (List.replicate 16 8) (List.replicate 12 9)
          (stringifyVault { credentials := [], version := 3 }) ['q']),
        master_hash := some (hashPassword (List.replicate 16 7) ['q']) }).1 ≠ none := by
  rw [unlockVault_sealed ⟨List.replicate 16 1, List.replicate 16 2,
    List.replicate 12 3⟩ ['q'] [] 3 (List.replicate 16 8) (List.replicate 12 9)
    (List.replicate 16 7) (by decide) (by decide) (by decide) (by decide) (by decide)
    (by decide)]
  simp

/-- Step lemma: once the stored hash verifies, `unlockVault` on a
present container is the decrypt-then-parse match. -/
theorem unlockVault_step (r : Rand) (pw c h : JsStr) (hv : verifyPassword pw h = true) :
    unlockVault r pw { encrypted_vault := some c, master_hash := some h }
      = match (decrypt c pw).bind parseVaultString with
        | none => (none, { encrypted_vault := some c, master_hash := some h })
        | some vaultData =>
          (some vaultData.credentials,
            { encrypted_vault := some c, master_hash := some h }) := by
  rw [unlockVault]
  conv_lhs => whnf
  rw [hv]
  conv_lhs => whnf

/-- C5 amended: `unlockVault` is a total function (it never throws), and
each detectable failure cause — absent hash slot, failed password
verification, and a container that fails base64 decoding or cipher
authentication — returns the same single value `none`, giving the caller
nothing to distinguish them; a version mismatch is not a failure cause:
a correctly sealed vault record with any version tag returns its
credentials.  The collapse is not exhaustive: the source returns
`vaultData.credentials` without validating the parsed JSON, so a
decrypted payload that is valid JSON but not a vault record escapes it
(`null` can surface with none of the causes present, and a non-record
payload yields `undefined`, distinguishable from `null`); the statement
below therefore covers exactly the causes the source detects. -/
theorem claim5_failure_collapse (r : Rand) (pw : JsStr) (st : Store) :
    (st.master_hash = none → (unlockVault r pw st).1 = none) ∧
    (∀ h, st.master_hash = some h → verifyPassword pw h = false →
      (unlockVault r pw st).1 = none) ∧
    (∀ h ev, st.master_hash = some h → verifyPassword pw h = true →
      st.encrypted_vault = some ev → decrypt ev pw = none →
      (unlockVault r pw st).1 = none) ∧
    (∀ h ev creds ver, st.master_hash = some h → verifyPassword pw h = true →
      st.encrypted_vault = some ev →
      decrypt ev pw = some (stringifyVault { credentials := creds, version := ver }) →
      (unlockVault r pw st).1 = some creds) := by
  obtain ⟨ev, mh⟩ := st
  match mh with
  | none =>
    refine ⟨fun _ => rfl, ?_, ?_, ?_⟩
    · intro h hmh
      exact absurd hmh (by simp)
    · intro h ev2 hmh
      exact absurd hmh (by simp)
    · intro h ev2 creds ver hmh
      exact absurd hmh (by simp)
  | some h0 =>
    refine ⟨?_, ?_, ?_, ?_⟩
    · intro hmh
      exact absurd hmh (by simp)
    · intro h hmh hv
      have e : some h0 = some h := hmh
      cases Option.some.inj e
      simp [unlockVault, hv]
    · intro h ev2 hmh hv hev hdec
      have e : some h0 = some h := hmh
      cases Option.some.inj e
      have e2 : ev = some ev2 := hev
      subst e2
      rw [unlockVault_step r pw ev2 h0 hv, hdec]
      rfl
    · intro h ev2 creds ver hmh hv hev hdec
      have e : some h0 = some h := hmh
      cases Option.some.inj e
      have e2 : ev = some ev2 := hev
      subst e2
      rw [unlockVault_step r pw ev2 h0 hv, hdec, Option.some_bind,
        parseVaultString_stringifyVault]

/-- Witness for C5's amended statement: the collapse on concrete
failure inputs, and the version-blind success at a concrete version-5
store. -/
theorem claim5_witness :
    (unlockVault ⟨[], [], []⟩ ['a'] { encrypted_vault := none, master_hash := none }).1
      = none ∧
    (unlockVault ⟨[], [], []⟩ ['a'] { encrypted_vault := none, master_hash := some ['!'] }).1
      = none ∧
    (unlockVault ⟨[], [], []⟩ ['k']
      { encrypted_vault := some (encrypt (List.replicate 16 10) (List.replicate 12 11)
          (stringifyVault { credentials := [], version := 5 }) ['k']),
        master_hash := some (hashPassword (List.replicate 16 12) ['k']) }).1 = some [] :=
  ⟨(claim5_failure_collapse ⟨[], [], []⟩ ['a']
      { encrypted_vault := none, master_hash := none }).1 rfl,
   (claim5_failure_collapse ⟨[], [], []⟩ ['a']
      { encrypted_vault := none, master_hash := some ['!'] }).2.1 ['!'] rfl (by decide),
   (claim5_failure_collapse ⟨[], [], []⟩ ['k']
      { encrypted_vault := some (encrypt (List.replicate 16 10) (List.replicate 12 11)
          (stringifyVault { credentials := [], version := 5 }) ['k']),
        master_hash := some (hashPassword (List.replicate 16 12) ['k']) }).2.2.2
      (hashPassword (List.replicate 16 12) ['k'])
      (encrypt (List.replicate 16 10) (List.replicate 12 11)
        (stringifyVault { credentials := [], version := 5 }) ['k'])
      [] 5 rfl
      (verifyPassword_hashPassword ['k'] (List.replicate 16 12) (by decide) (by decide))
      rfl
      (decrypt_encrypt (List.replicate 16 10) (List.replicate 12 11)
        (stringifyVault { credentials := [], version := 5 }) ['k']
        (by decide) (by decide) (by decide) (by decide))⟩

/-- C6: each sealing call emits exactly its fresh random salt and nonce
as the container's salt and nonce fields, so two calls given distinct
random inputs produce containers whose 16-byte salt fields differ and
whose 12-byte nonce fields differ. -/
theorem claim6_fresh_salt_and_nonce (s1 s2 iv1 iv2 : Bytes) (pt pw : JsStr)
    (hs1 : s1.length = 16) (hs2 : s2.length = 16)
    (hi1 : iv1.length = 12) (hi2 : iv2.length = 12)
    (hb1 : ∀ b ∈ s1, b < 256) (hb2 : ∀ b ∈ s2, b < 256)
    (hb3 : ∀ b ∈ iv1, b < 256) (hb4 : ∀ b ∈ iv2, b < 256)
    (hnes : s1 ≠ s2) (hnei : iv1 ≠ iv2) :
    (base64ToUint8Array (encrypt s1 iv1 pt pw)).map (List.take 16) = some s1 ∧
    (base64ToUint8Array (encrypt s1 iv1 pt pw)).map (fun bs => (bs.drop 16).take 12)
      = some iv1 ∧
    (base64ToUint8Array (encrypt s1 iv1 pt pw)).map (List.take 16)
      ≠ (base64ToUint8Array (encrypt s2 iv2 pt pw)).map (List.take 16) ∧
    (base64ToUint8Array (encrypt s1 iv1 pt pw)).map (fun bs => (bs.drop 16).take 12)
      ≠ (base64ToUint8Array (encrypt s2 iv2 pt pw)).map (fun bs => (bs.drop 16).take 12) := by
  obtain ⟨e1s, e1i⟩ := encrypt_fields s1 iv1 pt pw hs1 hi1 hb1 hb3
  obtain ⟨e2s, e2i⟩ := encrypt_fields s2 iv2 pt pw hs2 hi2 hb2 hb4
  refine ⟨e1s, e1i, ?_, ?_⟩
  · rw [e1s, e2s]
    intro hcontra
    exact hnes (Option.some.inj hcontra)
  · rw [e1i, e2i]
    intro hcontra
    exact hnei (Option.some.inj hcontra)

/-- Witness for C6 at concrete distinct salts and nonces. -/
theorem claim6_witness :
    (base64ToUint8Array (encrypt (List.replicate 16 1) (List.replicate 12 2) ['m'] ['p'])).map
        (List.take 16)
      ≠ (base64ToUint8Array (encrypt (List.replicate 16 3) (List.replicate 12 4) ['m'] ['p'])).map
        (List.take 16) :=
  (claim6_fresh_salt_and_nonce (List.replicate 16 1) (List.replicate 16 3)
    (List.replicate 12 2) (List.replicate 12 4) ['m'] ['p']
    (by decide) (by decide) (by decide) (by decide) (by decide) (by decide)
    (by decide) (by decide) (by decide) (by decide)).2.2.1

/-- C7: after reversing the base64 text encoding, every sealed container
is exactly salt ‖ nonce ‖ ciphertext+tag, with the salt in bytes [0,16),
the nonce in bytes [16,28) and the ciphertext with appended tag from byte
28 on; and `decrypt` splits any decoded input at exactly these fixed
offsets before deriving the key. -/
theorem claim7_container_layout (salt iv : Bytes) (pt pw : JsStr)
    (hs : salt.length = 16) (hi : iv.length = 12)
    (hsb : ∀ b ∈ salt, b < 256) (hib : ∀ b ∈ iv, b < 256) :
    (base64ToUint8Array (encrypt salt iv pt pw)
        = some (salt ++ (iv ++ aesGcmEncrypt (deriveKey pw salt) iv (stringToBuffer pt))) ∧
      (salt ++ (iv ++ aesGcmEncrypt (deriveKey pw salt) iv (stringToBuffer pt))).take 16
        = salt ∧
      ((salt ++ (iv ++ aesGcmEncrypt (deriveKey pw salt) iv (stringToBuffer pt))).drop 16).take 12
        = iv ∧
      (salt ++ (iv ++ aesGcmEncrypt (deriveKey pw salt) iv (stringToBuffer pt))).drop 28
        = aesGcmEncrypt (deriveKey pw salt) iv (stringToBuffer pt)) ∧
    (∀ bs : Bytes, (∀ b ∈ bs, b < 256) →
      decrypt (uint8ArrayToBase64 bs) pw
        = (aesGcmDecrypt (deriveKey pw (bs.take 16)) ((bs.drop 16).take 12)
            (bs.drop 28)).bind bufferToString) := by
  refine ⟨⟨encrypt_decoded salt iv pt pw hsb hib, List.take_left' hs, ?_, ?_⟩, ?_⟩
  · rw [List.drop_left' hs, List.take_left' hi]
  · rw [show (28 : Nat) = 16 + 12 from rfl, ← List.drop_drop,
      List.drop_left' hs, List.drop_left' hi]
  · intro bs hbs
    rw [decrypt, base64_round_trip bs hbs, Option.some_bind]
    rfl

/-- Witness for C7 at concrete inputs. -/
theorem claim7_witness :
    base64ToUint8Array (encrypt (List.replicate 16 11) (List.replicate 12 12) ['z'] ['p'])
      = some (List.replicate 16 11 ++ (List.replicate 12 12 ++
          aesGcmEncrypt (deriveKey ['p'] (List.replicate 16 11)) (List.replicate 12 12)
            (stringToBuffer ['z']))) :=
  (claim7_container_layout (List.replicate 16 11) (List.replicate 12 12) ['z'] ['p']
    (by decide) (by decide) (by decide) (by decide)).1.1

/-- C8: when the hash slot verifies the password and the container slot
is absent, `unlockVault` auto-creates a fresh empty vault — persisting a
new artifact and a sealed empty collection stamped with `VAULT_VERSION` —
and returns the empty credential list. -/
theorem claim8_recovery_transition (r : Rand) (pw : JsStr) (hsalt : Bytes)
    (hh16 : hsalt.length = 16) (hhb : ∀ b ∈ hsalt, b < 256) :
    unlockVault r pw { encrypted_vault := none, master_hash := some (hashPassword hsalt pw) }
      = (some [], createVault r pw
          { encrypted_vault := none, master_hash := some (hashPassword hsalt pw) }) ∧
    Store.encrypted_vault (createVault r pw
        { encrypted_vault := none, master_hash := some (hashPassword hsalt pw) })
      = some (encrypt r.encSalt r.encIv
          (stringifyVault { credentials := [], version := VAULT_VERSION }) pw) ∧
    Store.master_hash (createVault r pw
        { encrypted_vault := none, master_hash := some (hashPassword hsalt pw) })
      = some (hashPassword r.hashSalt pw) := by
  refine ⟨?_, rfl, rfl⟩
  rw [unlockVault]
  conv_lhs => whnf
  rw [verifyPassword_hashPassword pw hsalt hh16 hhb]
  conv_lhs => whnf

/-- Witness for C8 at concrete inputs. -/
theorem claim8_witness :
    (unlockVault ⟨List.replicate 16 1, List.replicate 16 2, List.replicate 12 3⟩ ['w']
      { encrypted_vault := none,
        master_hash := some (hashPassword (List.replicate 16 4) ['w']) }).1 = some [] := by
  rw [(claim8_recovery_transition ⟨List.replicate 16 1, List.replicate 16 2,
    List.replicate 12 3⟩ ['w'] (List.replicate 16 4) (by decide) (by decide)).1]

/-- C9: `importVault` is atomic — either both fields of the parsed record
are truthy, the call returns `true` and installs both slots, or the call
returns `false` and leaves the store unchanged; invalid JSON and records
lacking (or holding falsy) `encrypted` or `hash` always take the second
branch. -/
theorem claim9_import_atomic (data : Option ImportRecord) (st : Store) :
    (∃ rec, data = some rec ∧ truthyStr rec.encrypted = true ∧ truthyStr rec.hash = true ∧
      importVault data st
        = (true, { encrypted_vault := rec.encrypted, master_hash := rec.hash })) ∨
    importVault data st = (false, st) := by
  match data with
  | none => right; rfl
  | some rec =>
    rcases he : truthyStr rec.encrypted with _ | _
    · right
      rw [importVault, he]
      rfl
    · rcases hh : truthyStr rec.hash with _ | _
      · right
        rw [importVault, he, hh]
        rfl
      · left
        refine ⟨rec, rfl, he, hh, ?_⟩
        rw [importVault, he, hh]
        rfl

/-- C10: whenever both fields of the parsed import record are truthy,
`importVault` returns `true` and installs both strings verbatim with no
validation of encoding, length, container structure or version — so
importing undecodable garbage succeeds, yet the resulting store can never
be unlocked with any password. -/
theorem claim10_import_no_validation (rec : ImportRecord) (st : Store)
    (he : truthyStr rec.encrypted = true) (hh : truthyStr rec.hash = true) :
    importVault (some rec) st
      = (true, { encrypted_vault := rec.encrypted, master_hash := rec.hash }) ∧
    importVault (some ⟨some ['!'], some ['!']⟩) st
      = (true, { encrypted_vault := some ['!'], master_hash := some ['!'] }) ∧
    (∀ (pw : JsStr) (r : Rand),
      unlockVault r pw { encrypted_vault := some ['!'], master_hash := some ['!'] }
        = (none, { encrypted_vault := some ['!'], master_hash := some ['!'] })) := by
  refine ⟨?_, ?_, ?_⟩
  · rw [importVault, he, hh]
    rfl
  · rfl
  · intro pw r
    rfl

/-- Witness for C10 at a concrete truthy record. -/
theorem claim10_witness :
    importVault (some ⟨some ['e'], some ['h']⟩) { encrypted_vault := none, master_hash := none }
      = (true, { encrypted_vault := some ['e'], master_hash := some ['h'] }) :=
  (claim10_import_no_validation ⟨some ['e'], some ['h']⟩
    { encrypted_vault := none, master_hash := none } (by decide) (by decide)).1

end Paw
